import Mathlib

/-!
Shallow embedding of the asm_interpreter register-machine
(`src/value.rs`, `src/ast.rs`, `src/interpreter.rs`) and proofs about it.

Strings are modelled as Lean `String` (a list of unicode chars, matching
Rust `str::chars()`), machine integers as `Int` (Rust `i64`; the integer
parser keeps the explicit 64-bit overflow check of `str::parse::<i64>`,
which is the only place where the 64-bit bound is observable in the
properties below).  Fallible Rust functions returning `Result<_, String>`
become `Except Str _`; error message texts are abbreviated.
-/

namespace Asm

set_option maxRecDepth 100000

abbrev Str := String

instance {ε α : Type} [DecidableEq ε] [DecidableEq α] : DecidableEq (Except ε α) := fun a b =>
  match a, b with
  | .error x, .error y =>
    if h : x = y then .isTrue (by rw [h]) else .isFalse (fun hc => by cases hc; exact h rfl)
  | .ok x, .ok y =>
    if h : x = y then .isTrue (by rw [h]) else .isFalse (fun hc => by cases hc; exact h rfl)
  | .error _, .ok _ => .isFalse (fun hc => by cases hc)
  | .ok _, .error _ => .isFalse (fun hc => by cases hc)

/-- Constant `RAM_SLOTS` from `interpreter.rs`. -/
def RAM_SLOTS : Nat := 256

/-- Constant `ACC` from `interpreter.rs`: the accumulator register name. -/
def ACC : Str := "a"

/-- Constant `REGISTERS` from `interpreter.rs`. -/
def REGISTERS : List Str := ["a", "f", "r0", "r1", "r2", "r3", "r4", "r5", "r6", "r7"]

/-- `Value` from `value.rs`: `Number(i64)` or `String(String)`. -/
inductive Value where
  | Number : Int → Value
  | String : Str → Value
  deriving DecidableEq, Repr

/-- `Value::default()` from `value.rs`: `Number(0)`. -/
def Value.default : Value := Value.Number 0

/-- `ComparisonOp` from `ast.rs`. -/
inductive ComparisonOp where
  | Eq | Ne | Lt | Le | Gt | Ge
  deriving DecidableEq, Repr

/-- `ComparisonOp::compare` from `ast.rs`: turn an `Ordering` into the boolean
outcome of the comparison operator. -/
def ComparisonOp.compare (self : ComparisonOp) (ordering : Ordering) : Bool :=
  match self with
  | .Eq => ordering == Ordering.eq
  | .Ne => ordering != Ordering.eq
  | .Lt => ordering == Ordering.lt
  | .Le => ordering != Ordering.gt
  | .Gt => ordering == Ordering.gt
  | .Ge => ordering != Ordering.lt

/-- `Value::compare` from `value.rs`. -/
def Value.compare (self other : Value) (op : ComparisonOp) : Except Str Bool :=
  match self, other with
  | .Number a, .Number b => .ok (op.compare (Ord.compare a b))
  | .String a, .String b => .ok (op.compare (Ord.compare a b))
  | _, _ => .error "Invalid comparison"

/-- `Value::add` from `value.rs`. -/
def Value.add (self other : Value) : Except Str Value :=
  match self, other with
  | .Number a, .Number b => .ok (.Number (a + b))
  | .String a, .String b => .ok (.String (a ++ b))
  | _, _ => .error "Cannot add Number and String"

/-- `Value::sub` from `value.rs`.  For `String - Number`, a non-negative `n`
drops `n` chars from the front (`chars().skip(n)`), a negative `n` drops
`|n|` chars from the end, clamped to the empty string. -/
def Value.sub (self other : Value) : Except Str Value :=
  match self, other with
  | .Number a, .Number b => .ok (.Number (a - b))
  | .String a, .Number b =>
    let len := a.toList.length
    if 0 ≤ b then
      .ok (.String (String.mk (a.toList.drop b.natAbs)))
    else
      let abs_len := b.natAbs
      if len ≤ abs_len then
        .ok (.String "")
      else
        .ok (.String (String.mk (a.toList.take (len - abs_len))))
  | _, _ => .error "Invalid subtraction"

/-- Helper for `Value::mul`: the Rust loop `for _ in 0..b { s += a }`,
concatenating `a` with itself `b` times (`b ≤ 0` gives the empty string). -/
def repeatStr (a : Str) : Nat → Str
  | 0 => ""
  | n + 1 => repeatStr a n ++ a

/-- `Value::mul` from `value.rs`. -/
def Value.mul (self other : Value) : Except Str Value :=
  match self, other with
  | .Number a, .Number b => .ok (.Number (a * b))
  | .String a, .Number b => .ok (.String (repeatStr a b.toNat))
  | _, _ => .error "Invalid multiplication between number and string"

/-- `Value::div` from `value.rs`: truncating integer division with a
strictly-positive denominator required (`Int.tdiv` is Rust `i64::div`,
truncation toward zero); two strings give the signed difference of their
character counts. -/
def Value.div (self other : Value) : Except Str Value :=
  match self, other with
  | .Number a, .Number b =>
    if 0 < b then
      .ok (.Number (Int.tdiv a b))
    else
      .error s!"Division denominator is zero in {a}/{b}"
  | .String a, .String b =>
    .ok (.Number ((a.toList.length : Int) - (b.toList.length : Int)))
  | _, _ => .error "Invalid division between number and string"

/-- `Value::and` from `value.rs`. -/
def Value.and (self other : Value) : Except Str Value :=
  match self, other with
  | .Number a, .Number b => .ok (.Number (Int.land a b))
  | _, _ => .error "Invalid and. Both arguments must be numbers"

/-- `Value::or` from `value.rs`. -/
def Value.or (self other : Value) : Except Str Value :=
  match self, other with
  | .Number a, .Number b => .ok (.Number (Int.lor a b))
  | _, _ => .error "Invalid or. Both arguments must be numbers"

/-- `Value::xor` from `value.rs`. -/
def Value.xor (self other : Value) : Except Str Value :=
  match self, other with
  | .Number a, .Number b => .ok (.Number (Int.xor a b))
  | _, _ => .error "Invalid xor. Both arguments must be numbers"

/-- `Value::not` from `value.rs`: bitwise complement of a number. -/
def Value.not (self : Value) : Except Str Value :=
  match self with
  | .Number a => .ok (.Number (Int.lnot a))
  | .String _ => .error "Invalid not. Must be a number"

/-! ## Integer parsing (`convert_string_to_num` in `interpreter.rs`) -/

/-- Rust `char::to_lowercase` restricted to its ASCII effect (the register
names and numeric literals the interpreter handles are ASCII). -/
def charToLower (c : Char) : Char :=
  if 'A' ≤ c ∧ c ≤ 'Z' then Char.ofNat (c.toNat + 32) else c

/-- Rust `str::to_lowercase`. -/
def strToLower (s : Str) : Str := String.mk (s.toList.map charToLower)

/-- Whitespace as trimmed by Rust `str::trim` (ASCII part). -/
def isWs (c : Char) : Bool := c = ' ' ∨ c = '\t' ∨ c = '\n' ∨ c = '\r'

/-- Rust `str::trim`: drop leading and trailing whitespace. -/
def strTrim (s : Str) : Str :=
  String.mk (((s.toList.dropWhile isWs).reverse.dropWhile isWs).reverse)

/-- `strip_prefix` for a single-character prefix (the addressing marker). -/
def stripPrefixChar (c : Char) (s : Str) : Option Str :=
  match s.toList with
  | [] => none
  | x :: xs => if x = c then some (String.mk xs) else none

/-- Digit value of a char in a given radix, as in Rust `char::to_digit`. -/
def digitVal (radix : Nat) (c : Char) : Option Nat :=
  let d : Option Nat :=
    if '0' ≤ c ∧ c ≤ '9' then some (c.toNat - '0'.toNat)
    else if 'a' ≤ c ∧ c ≤ 'z' then some (c.toNat - 'a'.toNat + 10)
    else if 'A' ≤ c ∧ c ≤ 'Z' then some (c.toNat - 'A'.toNat + 10)
    else none
  match d with
  | some v => if v < radix then some v else none
  | none => none

/-- Accumulate the digits of an unsigned integer literal. -/
def parseDigitsAcc (radix : Nat) : List Char → Nat → Option Nat
  | [], acc => some acc
  | c :: cs, acc =>
    match digitVal radix c with
    | some d => parseDigitsAcc radix cs (acc * radix + d)
    | none => none

def I64_MIN : Int := -(2 ^ 63)

def I64_MAX : Int := 2 ^ 63 - 1

/-- Rust `i64::from_str_radix` / `str::parse::<i64>`: optional sign, one or
more digits of the radix, and the result must fit in a signed 64-bit
integer. -/
def from_str_radix (cs : List Char) (radix : Nat) : Except Str Int :=
  let signDigits : Bool × List Char :=
    match cs with
    | '+' :: rest => (false, rest)
    | '-' :: rest => (true, rest)
    | _ => (false, cs)
  match signDigits with
  | (neg, digits) =>
    if digits.isEmpty then
      .error "cannot parse integer from empty string"
    else
      match parseDigitsAcc radix digits 0 with
      | none => .error "invalid digit found in string"
      | some n =>
        let v : Int := if neg then -(n : Int) else (n : Int)
        if v < I64_MIN ∨ I64_MAX < v then
          .error "number too large to fit in target type"
        else
          .ok v

/-- `convert_string_to_num` from `interpreter.rs`: lowercase, trim, then
parse as hex (prefix `0x`), binary (prefix `0b`) or decimal `i64`. -/
def convert_string_to_num (input : Str) : Except Str Int :=
  let input := strTrim (strToLower input)
  match input.toList with
  | '0' :: 'x' :: hex => from_str_radix hex 16
  | '0' :: 'b' :: binary => from_str_radix binary 2
  | cs => from_str_radix cs 10

/-! ## AST (`ast.rs`) -/

/-- `Operand` from `ast.rs`. -/
inductive Operand where
  | Register : Str → Operand
  | Memory : Str → Operand
  | IndirectMemory : Str → Operand
  | Number : Str → Operand
  | Identifier : Str → Operand
  | Constant : Str → Operand
  | Character : Str → Operand
  | String : Str → Operand
  deriving DecidableEq, Repr

/-- `Comparison` from `ast.rs`: the optional guard of a conditional jump. -/
structure Comparison where
  left : Operand
  equality : ComparisonOp
  right : Operand
  deriving DecidableEq, Repr

/-- `Instruction` from `ast.rs`. -/
inductive Instruction where
  | Define : Str → Operand → Instruction
  | Set : Operand → Operand → Instruction
  | Load : Operand → Operand → Instruction
  | Store : Operand → Operand → Instruction
  | Clear : Operand → Instruction
  | Add : Operand → Operand → Instruction
  | Sub : Operand → Operand → Instruction
  | Mul : Operand → Operand → Instruction
  | Div : Operand → Operand → Instruction
  | Inc : Operand → Instruction
  | Dec : Operand → Instruction
  | Mov : Operand → Operand → Instruction
  | Push : Operand → Instruction
  | Pop : Option Operand → Instruction
  | Jmp : Operand → Option Comparison → Instruction
  | Call : Operand → Instruction
  | And : Operand → Operand → Instruction
  | Or : Operand → Operand → Instruction
  | Xor : Operand → Operand → Instruction
  | Not : Operand → Instruction
  | Ret : Instruction
  | Halt : Instruction
  deriving DecidableEq, Repr

/-- `Statement` from `ast.rs`. -/
inductive Statement where
  | Label : Str → Statement
  | CompileTime : Instruction → Statement
  | Instruction : Instruction → Statement
  deriving DecidableEq, Repr

/-! ## Machine state (the `Interpreter` struct of `interpreter.rs`)

The `HashMap`s for registers, labels and constants are modelled as
association lists with first-match lookup and overwrite-on-insert; the
`Vec`s used as stacks push and pop at the head.  The (never-read) display
buffer is omitted. -/

/-- First-match lookup in an association list (`HashMap::get`). -/
def lookupAssoc {α : Type} : List (Str × α) → Str → Option α
  | [], _ => none
  | (k, v) :: rest, key => if k = key then some v else lookupAssoc rest key

/-- Overwriting insert in an association list (`HashMap::insert`). -/
def insertAssoc {α : Type} : List (Str × α) → Str → α → List (Str × α)
  | [], key, v => [(key, v)]
  | (k, v0) :: rest, key, v =>
    if k = key then (key, v) :: rest else (k, v0) :: insertAssoc rest key v

/-- The `Interpreter` struct from `interpreter.rs`: register file, memory,
value stack, call stack, symbol tables, program, program counter, running
flag. -/
structure Machine where
  registers : List (Str × Value)
  memory : List Value
  stack : List Value
  callStack : List Nat
  labels : List (Str × Nat)
  constants : List (Str × Value)
  statements : List Statement
  pc : Nat
  running : Bool
  deriving DecidableEq, Repr

/-- `Interpreter::new()`: ten zeroed registers, `RAM_SLOTS` zeroed memory
cells, empty stacks and tables, `pc = 0`, running. -/
def initMachine : Machine where
  registers := REGISTERS.map (fun r => (r, Value.default))
  memory := List.replicate RAM_SLOTS (Value.Number 0)
  stack := []
  callStack := []
  labels := []
  constants := []
  statements := []
  pc := 0
  running := true

/-- `Interpreter::get_address`: an rvalue memory read.  The address text
must carry the `%` marker; the rest is parsed as an integer, rejected when
negative or `≥ RAM_SLOTS`, and otherwise indexes the memory array. -/
def Machine.get_address (m : Machine) (addr : Str) : Except Str Value :=
  match stripPrefixChar '%' addr with
  | none => .error s!"Invalid address {addr}"
  | some address =>
    match convert_string_to_num address with
    | .ok a =>
      if a < 0 then .error s!"Negative memory address {a}"
      else if RAM_SLOTS ≤ a.toNat then .error s!"Address out of range"
      else .ok (m.memory.getD a.toNat Value.default)
    | .error e => .error s!"Invalid address: {e}"

/-- `Interpreter::get_register`: an rvalue register read.  A name carrying
the `%` marker asks for an indirect read: the named register must hold a
`Number`, whose decimal rendering is then handed to `get_address`; a bare
name returns the register content. -/
def Machine.get_register (m : Machine) (register : Str) : Except Str Value :=
  let reg := strToLower register
  match stripPrefixChar '%' reg with
  | some r =>
    match lookupAssoc m.registers r with
    | some (Value.Number addr) => m.get_address (toString addr)
    | some _ => .error s!"Register {r} does not hold a numeric value for indirect access"
    | none => .error s!"{r} invalid"
  | none =>
    match lookupAssoc m.registers reg with
    | some r => .ok r
    | none => .error s!"Register {register} does not exist"

/-- The address-resolution part of `Interpreter::set_address` (lines
473-480): strip an optional `%` marker; if the remaining text names a
register holding a `Number`, use that number rendering as the address text
(indirect write), else keep the text. -/
def Machine.resolveWriteAddr (m : Machine) (address : Str) : Str :=
  let address0 := (stripPrefixChar '%' address).getD address
  match m.get_register address0 with
  | .ok (Value.Number new_address) => toString new_address
  | _ => address0

/-- `Interpreter::set_address`: an lvalue memory write, with the optional
marker stripping and register indirection of `resolveWriteAddr`, then the
same parse and bounds checks as `get_address`. -/
def Machine.set_address (m : Machine) (address : Str) (value : Value) : Except Str Machine :=
  let address1 := m.resolveWriteAddr address
  match convert_string_to_num address1 with
  | .ok a =>
    if a < 0 then .error s!"Negative memory address {a}"
    else if RAM_SLOTS ≤ a.toNat then .error s!"Address out of range"
    else .ok { m with memory := m.memory.set a.toNat value }
  | .error e => .error s!"Invalid address: {e}"

/-- `Interpreter::set_register`: lowercase the name, require it to exist,
overwrite its value. -/
def Machine.set_register (m : Machine) (register : Str) (value : Value) : Except Str Machine :=
  let reg := strToLower register
  match lookupAssoc m.registers reg with
  | some _ => .ok { m with registers := insertAssoc m.registers reg value }
  | none => .error s!"Register {reg} does not exist"

/-- `Interpreter::get_operand_value`: resolve an operand to a runtime
value if possible (`None` when unresolved). -/
def Machine.get_operand_value (m : Machine) (operand : Operand) : Option Value :=
  match operand with
  | .Number num => (convert_string_to_num num).toOption.map Value.Number
  | .Constant name => lookupAssoc m.constants name
  | .Character c => some (Value.String c)
  | .String s => some (Value.String s)
  | .Memory s => (m.get_address s).toOption
  | .Register r | .IndirectMemory r => (m.get_register r).toOption
  | .Identifier _ => none

/-- `Interpreter::set_operand_value`: only memory and register operands
are assignable. -/
def Machine.set_operand_value (m : Machine) (operand : Operand) (value : Value) : Except Str Machine :=
  match operand with
  | .Memory address => m.set_address address value
  | .Register register | .IndirectMemory register => m.set_register register value
  | .Constant s => .error s!"Cannot change constant {s}"
  | .Identifier i => .error s!"Cannot set identifier {i}"
  | .Number _ | .Character _ | .String _ => .error "Cannot set operand, invalid type"

/-! ## Instruction execution (`interpreter.rs`) -/

/-- `Interpreter::execute_set` (the step loop resolves `value` first). -/
def Machine.execute_set (m : Machine) (value : Value) (dest : Operand) : Except Str Machine :=
  match dest with
  | .Register name => m.set_register name value
  | .Memory address => m.set_address address value
  | _ => .error "Invalid operand for set"

/-- `Interpreter::execute_load`: `src` is read as a memory address
(`Memory` or `Number` operand) or a register; `dest` must be a register. -/
def Machine.execute_load (m : Machine) (src dest : Operand) : Except Str Machine :=
  let value : Except Str Value :=
    match src with
    | .Memory address | .Number address => m.get_address address
    | .Register reg => m.get_register reg
    | _ => .error "Invalid src for LOAD"
  match value with
  | .error e => .error e
  | .ok value =>
    match dest with
    | .Register name => m.set_register name value
    | _ => .error "Invalid operands used in LOAD"

/-- `Interpreter::execute_clear`: write the default value. -/
def Machine.execute_clear (m : Machine) (dest : Operand) : Except Str Machine :=
  m.set_operand_value dest Value.default

/-- `Interpreter::execute_move`. -/
def Machine.execute_move (m : Machine) (src dest : Operand) : Except Str Machine :=
  match m.get_operand_value src with
  | none => .error "Could not resolve value of operand"
  | some value => m.set_operand_value dest value

/-- `Interpreter::execute_add`: resolve both operands, apply `Value::add`,
write the result into the accumulator. -/
def Machine.execute_add (m : Machine) (left right : Operand) : Except Str Machine :=
  match m.get_operand_value left with
  | none => .error "Could not resolve value of operand"
  | some left_val =>
    match m.get_operand_value right with
    | none => .error "Could not resolve value of operand"
    | some right_val =>
      match Value.add left_val right_val with
      | .error e => .error e
      | .ok value => m.set_operand_value (Operand.Register ACC) value

/-- `Interpreter::execute_sub`. -/
def Machine.execute_sub (m : Machine) (left right : Operand) : Except Str Machine :=
  match m.get_operand_value left with
  | none => .error "Could not resolve value of operand"
  | some left_val =>
    match m.get_operand_value right with
    | none => .error "Could not resolve value of operand"
    | some right_val =>
      match Value.sub left_val right_val with
      | .error e => .error e
      | .ok value => m.set_operand_value (Operand.Register ACC) value

/-- `Interpreter::execute_mul`. -/
def Machine.execute_mul (m : Machine) (left right : Operand) : Except Str Machine :=
  match m.get_operand_value left with
  | none => .error "Could not resolve value of operand"
  | some left_val =>
    match m.get_operand_value right with
    | none => .error "Could not resolve value of operand"
    | some right_val =>
      match Value.mul left_val right_val with
      | .error e => .error e
      | .ok value => m.set_operand_value (Operand.Register ACC) value

/-- `Interpreter::execute_div`. -/
def Machine.execute_div (m : Machine) (left right : Operand) : Except Str Machine :=
  match m.get_operand_value left with
  | none => .error "Could not resolve value of operand"
  | some left_val =>
    match m.get_operand_value right with
    | none => .error "Could not resolve value of operand"
    | some right_val =>
      match Value.div left_val right_val with
      | .error e => .error e
      | .ok value => m.set_operand_value (Operand.Register ACC) value

/-- `Interpreter::execute_inc`: resolve `dest`, add one, write back into
`dest` itself. -/
def Machine.execute_inc (m : Machine) (dest : Operand) : Except Str Machine :=
  match m.get_operand_value dest with
  | none => .error "Could not resolve value of operand"
  | some value =>
    match Value.add value (Value.Number 1) with
    | .error e => .error e
    | .ok result => m.set_operand_value dest result

/-- `Interpreter::execute_dec`. -/
def Machine.execute_dec (m : Machine) (dest : Operand) : Except Str Machine :=
  match m.get_operand_value dest with
  | none => .error "Could not resolve value of operand"
  | some value =>
    match Value.sub value (Value.Number 1) with
    | .error e => .error e
    | .ok result => m.set_operand_value dest result

/-- `Interpreter::execute_and`. -/
def Machine.execute_and (m : Machine) (left right : Operand) : Except Str Machine :=
  match m.get_operand_value left with
  | none => .error "Could not resolve value of operand"
  | some left_val =>
    match m.get_operand_value right with
    | none => .error "Could not resolve value of operand"
    | some right_val =>
      match Value.and left_val right_val with
      | .error e => .error e
      | .ok value => m.set_operand_value (Operand.Register ACC) value

/-- `Interpreter::execute_or`. -/
def Machine.execute_or (m : Machine) (left right : Operand) : Except Str Machine :=
  match m.get_operand_value left with
  | none => .error "Could not resolve value of operand"
  | some left_val =>
    match m.get_operand_value right with
    | none => .error "Could not resolve value of operand"
    | some right_val =>
      match Value.or left_val right_val with
      | .error e => .error e
      | .ok value => m.set_operand_value (Operand.Register ACC) value

/-- `Interpreter::execute_xor`. -/
def Machine.execute_xor (m : Machine) (left right : Operand) : Except Str Machine :=
  match m.get_operand_value left with
  | none => .error "Could not resolve value of operand"
  | some left_val =>
    match m.get_operand_value right with
    | none => .error "Could not resolve value of operand"
    | some right_val =>
      match Value.xor left_val right_val with
      | .error e => .error e
      | .ok value => m.set_operand_value (Operand.Register ACC) value

/-- `Interpreter::execute_not`. -/
def Machine.execute_not (m : Machine) (src : Operand) : Except Str Machine :=
  match m.get_operand_value src with
  | none => .error "Could not resolve value of operand"
  | some val =>
    match Value.not val with
    | .error e => .error e
    | .ok value => m.set_operand_value (Operand.Register ACC) value

/-- `Interpreter::execute_jump`: look up the label; with a guard present,
resolve both sides and evaluate it — a false guard stores `pc + 1` (the
manual fall-through advance), otherwise the label index is stored. -/
def Machine.execute_jump (m : Machine) (label : Str) (comparison : Option Comparison) :
    Except Str Machine :=
  match lookupAssoc m.labels label with
  | none => .error s!"Label {label} does not exist"
  | some idx =>
    match comparison with
    | some comparison =>
      match m.get_operand_value comparison.left with
      | none => .error "Operand not found"
      | some left =>
        match m.get_operand_value comparison.right with
        | none => .error "Operand not found"
        | some right =>
          match Value.compare left right comparison.equality with
          | .error e => .error e
          | .ok result =>
            if !result then .ok { m with pc := m.pc + 1 }
            else .ok { m with pc := idx }
    | none => .ok { m with pc := idx }

/-- `Interpreter::execute_call`: push the current program counter onto the
call stack and jump to the label. -/
def Machine.execute_call (m : Machine) (label : Str) : Except Str Machine :=
  match lookupAssoc m.labels label with
  | none => .error s!"Label {label} does not exist"
  | some idx => .ok { m with callStack := m.pc :: m.callStack, pc := idx }

/-- `Interpreter::execute_ret`: pop the call stack and resume one past the
popped address; error on an empty call stack. -/
def Machine.execute_ret (m : Machine) : Except Str Machine :=
  match m.callStack with
  | [] => .error "Cannot return from a function since the call stack is empty"
  | addr :: rest => .ok { m with callStack := rest, pc := addr + 1 }

/-- `Interpreter::execute_halt`: clear the running flag (idempotent). -/
def Machine.execute_halt (m : Machine) : Machine :=
  if m.running then { m with running := false } else m

/-- `Interpreter::execute_push`: resolve `src`, substituting the default
value when unresolved (`unwrap_or_default`), and push it. -/
def Machine.execute_push (m : Machine) (src : Operand) : Machine :=
  let val := (m.get_operand_value src).getD Value.default
  { m with stack := val :: m.stack }

/-- The `stack.pop()` inside `Interpreter::execute_pop`: the popped value
together with the machine whose stack lost its top. -/
def Machine.stack_pop (m : Machine) : Option (Value × Machine) :=
  match m.stack with
  | [] => none
  | v :: rest => some (v, { m with stack := rest })

/-- `Interpreter::execute_pop`: pop the value stack (error when empty) and,
when a destination is given, write the popped value there.  The pop has
already happened when a destination write fails, so the error case carries
the machine state reached so far. -/
def Machine.execute_pop (m : Machine) (dest : Option Operand) : Machine × Option Str :=
  match m.stack_pop with
  | none => (m, some "Stack is empty, cannot pop")
  | some (val, m1) =>
    match dest with
    | none => (m1, none)
    | some dest =>
      match m1.set_operand_value dest val with
      | .ok m2 => (m2, none)
      | .error e => (m1, some e)

/-- `Interpreter::execute_store`: the value operand must be a `Register`;
resolve it and write into the destination. -/
def Machine.execute_store (m : Machine) (register memory_address : Operand) : Except Str Machine :=
  match register with
  | .Register _ =>
    match m.get_operand_value register with
    | none => .error "Invalid register"
    | some val => m.set_operand_value memory_address val
  | _ => .error "Store must be STORE register, memory address"

/-- Wrap an `Except`-returning handler into the step loop convention: an
error leaves the machine as the handler found it (the handlers above
mutate nothing before failing) and carries the message; the `Bool` is the
`increment_pc` flag of `Interpreter::step`. -/
def liftE (m : Machine) (r : Except Str Machine) (inc : Bool) : Machine × Option Str × Bool :=
  match r with
  | .ok m1 => (m1, none, inc)
  | .error e => (m, some e, inc)

/-- The instruction dispatch of `Interpreter::step`: run one instruction,
returning the machine, the error if any, and the `increment_pc` flag
(`false` for the control-flow instructions, which set the counter
themselves). -/
def Machine.execInstr (m : Machine) : Instruction → Machine × Option Str × Bool
  | .Define _ _ => (m, none, true)
  | .Set value dest =>
    match m.get_operand_value value with
    | none => (m, some "No value found", true)
    | some val => liftE m (m.execute_set val dest) true
  | .Load src dest => liftE m (m.execute_load src dest) true
  | .Clear target => liftE m (m.execute_clear target) true
  | .Mov src dest => liftE m (m.execute_move src dest) true
  | .Add left right => liftE m (m.execute_add left right) true
  | .Sub left right => liftE m (m.execute_sub left right) true
  | .Mul left right => liftE m (m.execute_mul left right) true
  | .Div left right => liftE m (m.execute_div left right) true
  | .Inc dest => liftE m (m.execute_inc dest) true
  | .Dec dest => liftE m (m.execute_dec dest) true
  | .And left right => liftE m (m.execute_and left right) true
  | .Or left right => liftE m (m.execute_or left right) true
  | .Xor left right => liftE m (m.execute_xor left right) true
  | .Not op => liftE m (m.execute_not op) true
  | .Jmp target comparison =>
    match target with
    | .Identifier label => liftE m (m.execute_jump label comparison) false
    | _ => (m, some "Invalid target", true)
  | .Call target =>
    match target with
    | .Identifier label => liftE m (m.execute_call label) false
    | _ => (m, some "Invalid target", true)
  | .Ret => liftE m m.execute_ret false
  | .Halt => (m.execute_halt, none, false)
  | .Push src => (m.execute_push src, none, true)
  | .Pop dest =>
    let p := m.execute_pop dest
    (p.1, p.2, true)
  | .Store value dest => liftE m (m.execute_store value dest) true

/-- The statement dispatch of `Interpreter::step`: labels and compile-time
statements are no-ops at run time. -/
def Machine.execStatement (m : Machine) : Statement → Machine × Option Str × Bool
  | .Label _ => (m, none, true)
  | .CompileTime _ => (m, none, true)
  | .Instruction instruction => m.execInstr instruction

/-- `Interpreter::step`: running past the end of the program halts; an
error propagates without touching the counter; otherwise the counter
advances by one unless the instruction managed it itself. -/
def Machine.step (m : Machine) : Machine × Option Str :=
  match m.statements[m.pc]? with
  | none => (m.execute_halt, none)
  | some stmt =>
    match m.execStatement stmt with
    | (m1, some e, _) => (m1, some e)
    | (m1, none, inc) => (if inc then { m1 with pc := m.pc + 1 } else m1, none)

/-! ## Concrete machines used by the witnesses and counterexamples -/

/-- Machine for the C1 failing input: register `r2` holds `Number 5`,
register `f` holds `Text "x"`, and memory cell 5 holds `Number 42`. -/
def cm1f : Machine :=
  { initMachine with
    registers := insertAssoc
      (insertAssoc initMachine.registers "r2" (Value.Number 5)) "f" (Value.String "x"),
    memory := initMachine.memory.set 5 (Value.Number 42) }

/-- Machine for the C3 witness: one guarded jump, guard `1 = 2` (false),
to the label at index 0. -/
def cmJmp : Machine :=
  { initMachine with
    statements := [Statement.Instruction (Instruction.Jmp (Operand.Identifier "l")
      (some ⟨Operand.Number "1", ComparisonOp.Eq, Operand.Number "2"⟩))],
    labels := [("l", 0)] }

/-- Machine for the C4 witness: a call to the label at index 2. -/
def cmCall : Machine :=
  { initMachine with
    statements := [Statement.Instruction (Instruction.Call (Operand.Identifier "fn")),
      Statement.Instruction Instruction.Halt, Statement.Label "fn",
      Statement.Instruction Instruction.Ret],
    labels := [("fn", 2)] }

/-- Machine for the empty-call-stack `Ret`. -/
def cmRet : Machine :=
  { initMachine with statements := [Statement.Instruction Instruction.Ret] }

/-- Machine for the C7 witness: a `Mov` whose source is an `Identifier`
operand, which never resolves. -/
def cmMov : Machine :=
  { initMachine with
    statements := [Statement.Instruction
      (Instruction.Mov (Operand.Identifier "x") (Operand.Register "r0"))] }

/-- Machine for the C10 witness: register `r2` holds `Number 5`. -/
def cm10 : Machine :=
  { initMachine with registers := insertAssoc initMachine.registers "r2" (Value.Number 5) }

/-! ## Helper lemmas -/

lemma toOption_eq_some {ε α : Type} {e : Except ε α} {a : α}
    (h : e.toOption = some a) : e = .ok a := by
  cases e with
  | ok x => simpa [Except.toOption] using h
  | error e0 => simp [Except.toOption] at h

lemma toOption_eq_none {ε α : Type} {e : Except ε α}
    (h : e.toOption = none) : ∃ e0, e = .error e0 := by
  cases e with
  | ok x => simp [Except.toOption] at h
  | error e0 => exact ⟨e0, rfl⟩

/-- The decimal rendering of a valid memory address parses back to it
(`to_string` of an `i64` undone by `convert_string_to_num`). -/
lemma repr_roundtrip : ∀ k : Nat, k < 256 →
    (convert_string_to_num (toString (Int.ofNat k))).toOption = some (Int.ofNat k) := by
  decide

/-! ## Claim theorems -/

/-- C2: for all 64-bit integers `a` and `b`, `Number a / Number b` is
`Number (a / b)` (truncating division) exactly when `b > 0`, and a
division-by-zero-labelled error for every `b ≤ 0`, negative `b` included. -/
theorem C2_div_requires_strictly_positive_denominator (a b : Int) :
    (0 < b → Value.div (Value.Number a) (Value.Number b)
        = Except.ok (Value.Number (Int.tdiv a b)))
    ∧ (b ≤ 0 → Value.div (Value.Number a) (Value.Number b)
        = Except.error s!"Division denominator is zero in {a}/{b}") := by
  constructor
  · intro h
    simp [Value.div, h]
  · intro h
    simp [Value.div, Int.not_lt.mpr h]

/-- Witness for C2 at `7 / 2` and `7 / (-3)`. -/
theorem C2_witness :
    ((0 : Int) < 2 ∧ Value.div (Value.Number 7) (Value.Number 2)
        = Except.ok (Value.Number (Int.tdiv 7 2)))
    ∧ ((-3 : Int) ≤ 0 ∧ Value.div (Value.Number 7) (Value.Number (-3))
        = Except.error "Division denominator is zero in 7/-3") :=
  ⟨⟨by norm_num, (C2_div_requires_strictly_positive_denominator 7 2).1 (by norm_num)⟩,
   ⟨by norm_num, (C2_div_requires_strictly_positive_denominator 7 (-3)).2 (by norm_num)⟩⟩

/-- C5: `Text s - Number n` always succeeds; a non-negative `n` drops the
first `n` characters, a negative `n` drops the last `abs n` characters,
and the result is empty whenever `abs n` reaches the character count. -/
theorem C5_sub_string_number (s : Str) (n : Int) :
    (0 ≤ n → Value.sub (Value.String s) (Value.Number n)
        = Except.ok (Value.String (String.mk (s.toList.drop n.toNat))))
    ∧ (n < 0 → Value.sub (Value.String s) (Value.Number n)
        = Except.ok (Value.String (String.mk (s.toList.take (s.toList.length - n.natAbs)))))
    ∧ (s.toList.length ≤ n.natAbs → Value.sub (Value.String s) (Value.Number n)
        = Except.ok (Value.String "")) := by
  refine ⟨fun h => ?_, fun h => ?_, fun h => ?_⟩
  · have habs : n.natAbs = n.toNat := by omega
    simp only [Value.sub]
    rw [if_pos h, habs]
  · have hneg : ¬ 0 ≤ n := by omega
    simp only [Value.sub]
    rw [if_neg hneg]
    by_cases hlen : s.toList.length ≤ n.natAbs
    · rw [if_pos hlen]
      have hz : s.toList.length - n.natAbs = 0 := by omega
      rw [hz]
      rfl
    · rw [if_neg hlen]
  · by_cases hpos : 0 ≤ n
    · simp only [Value.sub]
      rw [if_pos hpos]
      have hd : s.toList.drop n.natAbs = [] := List.drop_eq_nil_of_le h
      rw [hd]
    · have hneg : ¬ 0 ≤ n := hpos
      simp only [Value.sub]
      rw [if_neg hneg, if_pos h]

/-- Witness for C5 at `"hello" - 2`, `"hello" - (-2)` and `"hi" - 7`. -/
theorem C5_witness :
    ((0 : Int) ≤ 2 ∧ Value.sub (Value.String "hello") (Value.Number 2)
        = Except.ok (Value.String (String.mk ("hello".toList.drop (2 : Int).toNat))))
    ∧ ((-2 : Int) < 0 ∧ Value.sub (Value.String "hello") (Value.Number (-2))
        = Except.ok (Value.String (String.mk ("hello".toList.take
            ("hello".toList.length - (-2 : Int).natAbs)))))
    ∧ ("hi".toList.length ≤ (7 : Int).natAbs ∧ Value.sub (Value.String "hi") (Value.Number 7)
        = Except.ok (Value.String "")) :=
  ⟨⟨by norm_num, (C5_sub_string_number "hello" 2).1 (by norm_num)⟩,
   ⟨by norm_num, (C5_sub_string_number "hello" (-2)).2.1 (by norm_num)⟩,
   ⟨by decide, (C5_sub_string_number "hi" 7).2.2 (by decide)⟩⟩

/-- C8: pushing an operand that resolves to `v` and immediately popping
returns exactly `v` and restores the machine (in particular the value
stack) to its state before the pair; popping an empty value stack always
fails with the stack-underflow error. -/
theorem C8_push_pop_roundtrip (m : Machine) (src : Operand) (v : Value)
    (h : m.get_operand_value src = some v) :
    (m.execute_push src).stack_pop = some (v, m)
    ∧ ∀ (m2 : Machine) (dest : Option Operand), m2.stack = [] →
        m2.execute_pop dest = (m2, some "Stack is empty, cannot pop") := by
  constructor
  · simp only [Machine.execute_push, Machine.stack_pop, h, Option.getD]
  · intro m2 dest h2
    simp only [Machine.execute_pop, Machine.stack_pop, h2]

/-- Witness for C8: push the literal `42`, pop it back; pop the empty
initial stack. -/
theorem C8_witness :
    (initMachine.execute_push (Operand.Number "42")).stack_pop
        = some (Value.Number 42, initMachine)
    ∧ initMachine.execute_pop none
        = (initMachine, some "Stack is empty, cannot pop") :=
  ⟨(C8_push_pop_roundtrip initMachine (Operand.Number "42") (Value.Number 42) (by decide)).1,
   (C8_push_pop_roundtrip initMachine (Operand.Number "42") (Value.Number 42) (by decide)).2
     initMachine none rfl⟩

/-- C9: a `Push` whose source operand does not resolve to a runtime value
succeeds and pushes the default value `Number 0`. -/
theorem C9_push_unresolved_pushes_default (m : Machine) (src : Operand)
    (h : m.get_operand_value src = none) :
    m.execInstr (Instruction.Push src)
      = ({ m with stack := Value.Number 0 :: m.stack }, none, true) := by
  simp only [Machine.execInstr, Machine.execute_push, h, Option.getD, Value.default]

/-- Witness for C9: push an `Identifier` operand, which never resolves. -/
theorem C9_witness :
    initMachine.execInstr (Instruction.Push (Operand.Identifier "main"))
      = ({ initMachine with stack := [Value.Number 0] }, none, true) :=
  C9_push_unresolved_pushes_default initMachine (Operand.Identifier "main") rfl

/-- C1 (code bug): with `r2 = Number 5` (a valid address: memory cell 5
holds `Number 42`, as the direct read `%5` shows), the indirect register
read `%r2` nevertheless returns an error — `get_register` hands the bare
decimal rendering of the register value to `get_address`, which demands a
`%` marker — where the claim (and the spec) say it must return the value
at memory index 5.  The error for a register holding `Text` (here `f`)
does agree with the claim. -/
theorem C1_indirect_register_read_always_errors :
    lookupAssoc cm1f.registers "r2" = some (Value.Number 5)
    ∧ cm1f.memory.getD 5 Value.default = Value.Number 42
    ∧ cm1f.get_address "%5" = Except.ok (Value.Number 42)
    ∧ (cm1f.get_register "%r2").toOption = none
    ∧ lookupAssoc cm1f.registers "f" = some (Value.String "x")
    ∧ (cm1f.get_register "%f").toOption = none := by
  decide

/-- C6: any memory read or write whose resolved address is negative or at
least `RAM_SLOTS` returns an error.  Reads are pure, and a failing
`set_address` returns no machine, so no memory slot is touched and the
memory is unchanged. -/
theorem C6_out_of_range_memory_access_errors (m : Machine) (rest : Str) (n : Int) (v : Value)
    (hn : convert_string_to_num rest = Except.ok n)
    (hout : n < 0 ∨ (RAM_SLOTS : Int) ≤ n) :
    (∀ addr, stripPrefixChar '%' addr = some rest →
        ∃ e, m.get_address addr = Except.error e)
    ∧ (∀ addr, m.resolveWriteAddr addr = rest →
        ∃ e, m.set_address addr v = Except.error e) := by
  constructor
  · intro addr ha
    simp only [Machine.get_address, ha, hn]
    rcases hout with h | h
    · rw [if_pos h]
      exact ⟨_, rfl⟩
    · have h1 : ¬ n < 0 := by omega
      have h2 : RAM_SLOTS ≤ n.toNat := by omega
      rw [if_neg h1, if_pos h2]
      exact ⟨_, rfl⟩
  · intro addr ha
    simp only [Machine.set_address, ha, hn]
    rcases hout with h | h
    · rw [if_pos h]
      exact ⟨_, rfl⟩
    · have h1 : ¬ n < 0 := by omega
      have h2 : RAM_SLOTS ≤ n.toNat := by omega
      rw [if_neg h1, if_pos h2]
      exact ⟨_, rfl⟩

/-- Witness for C6 at address 300 (≥ 256) and address -1. -/
theorem C6_witness :
    (∃ e, initMachine.get_address "%300" = Except.error e)
    ∧ (∃ e, initMachine.set_address "300" (Value.Number 1) = Except.error e)
    ∧ (∃ e, initMachine.get_address "%-1" = Except.error e)
    ∧ (∃ e, initMachine.set_address "%-1" (Value.Number 1) = Except.error e) := by
  have h300 := C6_out_of_range_memory_access_errors initMachine "300" 300 (Value.Number 1)
    (by decide) (by norm_num [RAM_SLOTS])
  have hneg := C6_out_of_range_memory_access_errors initMachine "-1" (-1) (Value.Number 1)
    (by decide) (by norm_num)
  exact ⟨h300.1 "%300" (by decide), h300.2 "300" (by decide),
    hneg.1 "%-1" (by decide), hneg.2 "%-1" (by decide)⟩

/-- C3: a `Jmp` whose guard is present and evaluates to false advances the
program counter by exactly one; a taken branch (guard true or absent) sets
the counter to the target label index with no further increment. -/
theorem C3_jmp_program_counter (m : Machine) (lbl : Str) (comparison : Option Comparison)
    (idx : Nat)
    (hstmt : m.statements[m.pc]? = some (Statement.Instruction
      (Instruction.Jmp (Operand.Identifier lbl) comparison)))
    (hlbl : lookupAssoc m.labels lbl = some idx) :
    (∀ cmp left right, comparison = some cmp →
        m.get_operand_value cmp.left = some left →
        m.get_operand_value cmp.right = some right →
        (Value.compare left right cmp.equality = Except.ok false →
            m.step = ({ m with pc := m.pc + 1 }, none))
        ∧ (Value.compare left right cmp.equality = Except.ok true →
            m.step = ({ m with pc := idx }, none)))
    ∧ (comparison = none → m.step = ({ m with pc := idx }, none)) := by
  constructor
  · rintro cmp left right rfl hl hr
    constructor
    · intro hcmp
      simp only [Machine.step, hstmt, Machine.execStatement, Machine.execInstr,
        Machine.execute_jump, hlbl, hl, hr, hcmp, liftE, Bool.not_false, if_true]
      simp
    · intro hcmp
      simp only [Machine.step, hstmt, Machine.execStatement, Machine.execInstr,
        Machine.execute_jump, hlbl, hl, hr, hcmp, liftE, Bool.not_true, if_false]
      simp
  · rintro rfl
    simp only [Machine.step, hstmt, Machine.execStatement, Machine.execInstr,
      Machine.execute_jump, hlbl, liftE]
    simp

/-- Witness for C3: the untaken guarded jump of `cmJmp` advances the
counter by exactly one. -/
theorem C3_witness : cmJmp.step = ({ cmJmp with pc := cmJmp.pc + 1 }, none) :=
  ((C3_jmp_program_counter cmJmp "l"
      (some ⟨Operand.Number "1", ComparisonOp.Eq, Operand.Number "2"⟩) 0 rfl rfl).1
    ⟨Operand.Number "1", ComparisonOp.Eq, Operand.Number "2"⟩
    (Value.Number 1) (Value.Number 2) rfl (by decide) (by decide)).1 (by decide)

/-- C4: `Call` of a defined label pushes the current counter onto the call
stack and jumps to the label index; `Ret` pops the call stack and resumes
at the popped address plus one (the instruction after the call); `Ret`
with an empty call stack always fails with stack underflow. -/
theorem C4_call_ret (m : Machine) (lbl : Str) (idx : Nat)
    (hstmt : m.statements[m.pc]? = some (Statement.Instruction
      (Instruction.Call (Operand.Identifier lbl))))
    (hlbl : lookupAssoc m.labels lbl = some idx) :
    m.step = ({ m with callStack := m.pc :: m.callStack, pc := idx }, none)
    ∧ (∀ m2 : Machine,
        m2.statements[m2.pc]? = some (Statement.Instruction Instruction.Ret) →
        (∀ a rest, m2.callStack = a :: rest →
            m2.step = ({ m2 with callStack := rest, pc := a + 1 }, none))
        ∧ (m2.callStack = [] →
            m2.step = (m2, some "Cannot return from a function since the call stack is empty"))) := by
  constructor
  · simp only [Machine.step, hstmt, Machine.execStatement, Machine.execInstr,
      Machine.execute_call, hlbl, liftE]
    simp
  · intro m2 hstmt2
    constructor
    · intro a rest hcs
      simp only [Machine.step, hstmt2, Machine.execStatement, Machine.execInstr,
        Machine.execute_ret, hcs, liftE]
      simp
    · intro hcs
      simp only [Machine.step, hstmt2, Machine.execStatement, Machine.execInstr,
        Machine.execute_ret, hcs, liftE]

/-- Witness for C4: the call of `cmCall` pushes 0 and jumps to 2; running
the `Ret` at index 3 with call stack `[0]` resumes at 1; `Ret` on the
empty call stack of `cmRet` fails. -/
theorem C4_witness :
    cmCall.step = ({ cmCall with callStack := [0], pc := 2 }, none)
    ∧ { cmCall with callStack := [0], pc := 3 }.step
        = ({ cmCall with callStack := [], pc := 1 }, none)
    ∧ cmRet.step = (cmRet, some "Cannot return from a function since the call stack is empty") := by
  have h := C4_call_ret cmCall "fn" 2 rfl rfl
  refine ⟨h.1, ?_, ?_⟩
  · exact (h.2 { cmCall with callStack := [0], pc := 3 } rfl).1 0 [] rfl
  · exact (h.2 cmRet rfl).2 rfl

/-- C10: a memory write accepts its address text with or without the `%`
marker, and when the marker-stripped text names a register holding
`Number k` (with `k` a valid index) the write lands at memory index `k`;
a memory read demands the `%` marker and never consults registers, so the
same operand (`r` here) can be written through but not read. -/
theorem C10_memory_write_read_asymmetry (m : Machine) (r : Str) (k : Nat) (v : Value)
    (hlow : strToLower r = r)
    (hr : stripPrefixChar '%' r = none)
    (hreg : lookupAssoc m.registers r = some (Value.Number (Int.ofNat k)))
    (hk : k < RAM_SLOTS)
    (hnoparse : (convert_string_to_num r).toOption = none) :
    m.set_address r v = Except.ok { m with memory := m.memory.set k v }
    ∧ m.set_address (String.mk ('%' :: r.toList)) v
        = Except.ok { m with memory := m.memory.set k v }
    ∧ (∃ e, m.get_address r = Except.error e)
    ∧ (∃ e, m.get_address (String.mk ('%' :: r.toList)) = Except.error e)
    ∧ (∀ s n, stripPrefixChar '%' s = none →
        stripPrefixChar '%' (strToLower s) = none →
        lookupAssoc m.registers (strToLower s) = none →
        convert_string_to_num s = Except.ok n →
        0 ≤ n → n.toNat < RAM_SLOTS →
        m.set_address s v = Except.ok { m with memory := m.memory.set n.toNat v }
        ∧ m.set_address (String.mk ('%' :: s.toList)) v
            = Except.ok { m with memory := m.memory.set n.toNat v }) := by
  have hg : m.get_register r = Except.ok (Value.Number (Int.ofNat k)) := by
    simp only [Machine.get_register, hlow, hr, hreg]
  have hconv : convert_string_to_num (toString (Int.ofNat k)) = Except.ok (Int.ofNat k) :=
    toOption_eq_some (repr_roundtrip k hk)
  have htn : (Int.ofNat k).toNat = k := rfl
  have wk : ∀ s0, m.resolveWriteAddr s0 = toString (Int.ofNat k) →
      m.set_address s0 v = Except.ok { m with memory := m.memory.set k v } := by
    intro s0 h0
    simp only [Machine.set_address, h0, hconv]
    have h1 : ¬ (Int.ofNat k : Int) < 0 := Int.not_lt.mpr (Int.ofNat_nonneg k)
    have h2 : ¬ RAM_SLOTS ≤ (Int.ofNat k).toNat := by rw [htn]; exact Nat.not_le.mpr hk
    rw [if_neg h1, if_neg h2, htn]
  have hstrip : ∀ s0 : Str, stripPrefixChar '%' (String.mk ('%' :: s0.toList)) = some s0 := by
    intro s0
    rfl
  refine ⟨?_, ?_, ?_, ?_, ?_⟩
  · exact wk r (by simp only [Machine.resolveWriteAddr, hr, Option.getD, hg])
  · exact wk (String.mk ('%' :: r.toList))
      (by simp only [Machine.resolveWriteAddr, hstrip r, Option.getD, hg])
  · simp only [Machine.get_address, hr]
    exact ⟨_, rfl⟩
  · obtain ⟨e0, he⟩ := toOption_eq_none hnoparse
    simp only [Machine.get_address, hstrip r, he]
    exact ⟨_, rfl⟩
  · intro s n hs1 hs2 hlook hcv hpos hlt
    have hgs : m.get_register s = Except.error s!"Register {s} does not exist" := by
      simp only [Machine.get_register, hs2, hlook]
    have hrws : m.resolveWriteAddr s = s := by
      simp only [Machine.resolveWriteAddr, hs1, Option.getD, hgs]
    have hrws2 : m.resolveWriteAddr (String.mk ('%' :: s.toList)) = s := by
      simp only [Machine.resolveWriteAddr, hstrip s, Option.getD, hgs]
    have h1 : ¬ n < 0 := by omega
    have h2 : ¬ RAM_SLOTS ≤ n.toNat := Nat.not_le.mpr hlt
    constructor
    · simp only [Machine.set_address, hrws, hcv]
      rw [if_neg h1, if_neg h2]
    · simp only [Machine.set_address, hrws2, hcv]
      rw [if_neg h1, if_neg h2]

/-- Witness for C10: writing through `r2` (no marker) and `%r2` stores at
index 5, the matching reads fail, and the literal address `250` works with
or without the marker. -/
theorem C10_witness :
    cm10.set_address "r2" (Value.Number 9)
        = Except.ok { cm10 with memory := cm10.memory.set 5 (Value.Number 9) }
    ∧ cm10.set_address "%r2" (Value.Number 9)
        = Except.ok { cm10 with memory := cm10.memory.set 5 (Value.Number 9) }
    ∧ (∃ e, cm10.get_address "r2" = Except.error e)
    ∧ (∃ e, cm10.get_address "%r2" = Except.error e)
    ∧ cm10.set_address "250" (Value.Number 9)
        = Except.ok { cm10 with memory := cm10.memory.set 250 (Value.Number 9) } := by
  have h := C10_memory_write_read_asymmetry cm10 "r2" 5 (Value.Number 9)
    (by decide) (by decide) (by decide) (by decide) (by decide)
  have h250 := h.2.2.2.2 "250" 250 (by decide) (by decide) (by decide) (by decide)
    (by decide) (by decide)
  exact ⟨h.1, h.2.1, h.2.2.1, h.2.2.2.1, h250.1⟩

/-! ### Frame lemmas for C7 -/

lemma frameOf {m m1 : Machine} (h : m1 = m) :
    m1.registers = m.registers ∧ m1.memory = m.memory := by
  rw [h]
  exact ⟨rfl, rfl⟩

/-- A failing `Except`-handler lifted by `liftE` returns the machine it
was given. -/
lemma liftE_error_state {m m1 : Machine} {r : Except Str Machine} {b c : Bool} {e : Str}
    (h : liftE m r b = (m1, some e, c)) : m1 = m := by
  cases r with
  | ok x => simp [liftE] at h
  | error e0 =>
    simp only [liftE, Prod.mk.injEq] at h
    exact h.1.symm

lemma pair_error_state {m m1 : Machine} {e0 e : Str} {b c : Bool}
    (h : ((m, some e0, b) : Machine × Option Str × Bool) = (m1, some e, c)) : m1 = m := by
  simp only [Prod.mk.injEq] at h
  exact h.1.symm

/-- Popping only shrinks the value stack. -/
lemma stack_pop_state {m : Machine} {v : Value} {m1 : Machine}
    (h : m.stack_pop = some (v, m1)) :
    m1.registers = m.registers ∧ m1.memory = m.memory := by
  unfold Machine.stack_pop at h
  cases hst : m.stack with
  | nil => rw [hst] at h; simp at h
  | cons a rest =>
    rw [hst] at h
    simp only [Option.some.injEq, Prod.mk.injEq] at h
    rw [← h.2]
    exact ⟨rfl, rfl⟩

/-- A failing `execute_pop` leaves registers and memory untouched (the
stack may already have been popped). -/
lemma execute_pop_error_state (m m1 : Machine) (dest : Option Operand) (e : Str)
    (h : m.execute_pop dest = (m1, some e)) :
    m1.registers = m.registers ∧ m1.memory = m.memory := by
  cases hsp : m.stack_pop with
  | none =>
    simp only [Machine.execute_pop, hsp, Prod.mk.injEq] at h
    rw [← h.1]
    exact ⟨rfl, rfl⟩
  | some p =>
    obtain ⟨val, mm⟩ := p
    obtain ⟨hr1, hm1⟩ := stack_pop_state hsp
    simp only [Machine.execute_pop, hsp] at h
    cases dest with
    | none => simp at h
    | some d =>
      dsimp only at h
      cases hset : mm.set_operand_value d val with
      | ok m2 => rw [hset] at h; simp at h
      | error e1 =>
        rw [hset] at h
        simp only [Prod.mk.injEq] at h
        rw [← h.1]
        exact ⟨hr1, hm1⟩

/-- Any failing instruction leaves every register and memory slot as it
was: each handler resolves its reads before any write, and each write
helper validates before mutating. -/
lemma execStatement_error_frame (m : Machine) (stmt : Statement) (m1 : Machine) (e : Str)
    (inc : Bool) (h : m.execStatement stmt = (m1, some e, inc)) :
    m1.registers = m.registers ∧ m1.memory = m.memory := by
  cases stmt with
  | Label name => simp [Machine.execStatement] at h
  | CompileTime i => simp [Machine.execStatement] at h
  | Instruction i =>
    simp only [Machine.execStatement] at h
    cases i with
    | Define name value => simp [Machine.execInstr] at h
    | Set value dest =>
      simp only [Machine.execInstr] at h
      cases hv : m.get_operand_value value with
      | none => rw [hv] at h; exact frameOf (pair_error_state h)
      | some val => rw [hv] at h; exact frameOf (liftE_error_state h)
    | Load src dest =>
      simp only [Machine.execInstr] at h
      exact frameOf (liftE_error_state h)
    | Clear target =>
      simp only [Machine.execInstr] at h
      exact frameOf (liftE_error_state h)
    | Mov src dest =>
      simp only [Machine.execInstr] at h
      exact frameOf (liftE_error_state h)
    | Add left right =>
      simp only [Machine.execInstr] at h
      exact frameOf (liftE_error_state h)
    | Sub left right =>
      simp only [Machine.execInstr] at h
      exact frameOf (liftE_error_state h)
    | Mul left right =>
      simp only [Machine.execInstr] at h
      exact frameOf (liftE_error_state h)
    | Div left right =>
      simp only [Machine.execInstr] at h
      exact frameOf (liftE_error_state h)
    | Inc dest =>
      simp only [Machine.execInstr] at h
      exact frameOf (liftE_error_state h)
    | Dec dest =>
      simp only [Machine.execInstr] at h
      exact frameOf (liftE_error_state h)
    | And left right =>
      simp only [Machine.execInstr] at h
      exact frameOf (liftE_error_state h)
    | Or left right =>
      simp only [Machine.execInstr] at h
      exact frameOf (liftE_error_state h)
    | Xor left right =>
      simp only [Machine.execInstr] at h
      exact frameOf (liftE_error_state h)
    | Not op =>
      simp only [Machine.execInstr] at h
      exact frameOf (liftE_error_state h)
    | Jmp target comparison =>
      simp only [Machine.execInstr] at h
      cases target with
      | Identifier lbl => exact frameOf (liftE_error_state h)
      | Register s => exact frameOf (pair_error_state h)
      | Memory s => exact frameOf (pair_error_state h)
      | IndirectMemory s => exact frameOf (pair_error_state h)
      | Number s => exact frameOf (pair_error_state h)
      | Constant s => exact frameOf (pair_error_state h)
      | Character s => exact frameOf (pair_error_state h)
      | String s => exact frameOf (pair_error_state h)
    | Call target =>
      simp only [Machine.execInstr] at h
      cases target with
      | Identifier lbl => exact frameOf (liftE_error_state h)
      | Register s => exact frameOf (pair_error_state h)
      | Memory s => exact frameOf (pair_error_state h)
      | IndirectMemory s => exact frameOf (pair_error_state h)
      | Number s => exact frameOf (pair_error_state h)
      | Constant s => exact frameOf (pair_error_state h)
      | Character s => exact frameOf (pair_error_state h)
      | String s => exact frameOf (pair_error_state h)
    | Ret =>
      simp only [Machine.execInstr] at h
      exact frameOf (liftE_error_state h)
    | Halt => simp [Machine.execInstr] at h
    | Push src => simp [Machine.execInstr] at h
    | Pop dest =>
      simp only [Machine.execInstr] at h
      rcases hp : m.execute_pop dest with ⟨mm, err⟩
      rw [hp] at h
      simp only [Prod.mk.injEq] at h
      obtain ⟨h1, h2, _⟩ := h
      cases err with
      | none => simp at h2
      | some e1 =>
        rw [← h1]
        exact execute_pop_error_state m mm dest e1 hp
    | Store value dest =>
      simp only [Machine.execInstr] at h
      exact frameOf (liftE_error_state h)

/-- C7: when a step returns an error — in particular when a read-side
operand fails to resolve — no write from that instruction has been
applied: every register and every memory slot holds exactly the value it
held before the step began. -/
theorem C7_failed_step_leaves_registers_and_memory (m m1 : Machine) (e : Str)
    (h : m.step = (m1, some e)) :
    m1.registers = m.registers ∧ m1.memory = m.memory := by
  unfold Machine.step at h
  cases hs : m.statements[m.pc]? with
  | none => rw [hs] at h; simp at h
  | some stmt =>
    rw [hs] at h
    dsimp only at h
    rcases he : m.execStatement stmt with ⟨ma, err, inc⟩
    rw [he] at h
    cases err with
    | none => simp at h
    | some e0 =>
      dsimp only at h
      simp only [Prod.mk.injEq] at h
      obtain ⟨h1, _⟩ := h
      rw [← h1]
      exact execStatement_error_frame m stmt ma e0 inc he

/-- Witness for C7: a `Mov` from an unresolvable operand errors and the
machine is unchanged. -/
theorem C7_witness :
    cmMov.step = (cmMov, some "Could not resolve value of operand")
    ∧ cmMov.registers = cmMov.registers ∧ cmMov.memory = cmMov.memory :=
  ⟨by decide,
   C7_failed_step_leaves_registers_and_memory cmMov cmMov
     "Could not resolve value of operand" (by decide)⟩

end Asm
